import Mathlib

/-!
Verification development for the looker capture-cache-orchestration pipeline.

Shallow embedding of the TypeScript sources:
* `src/cache.ts` — `ScreenshotCache` (`generateKey`, `getCached`, `setCached`),
* `src/retry.ts` — `retryWithBackoff`,
* `src/capture.ts` — `resizeIfNeeded`,
* `src/analyze.ts` — `parseAnalysisResponse`,
* the run driver — Phase A / Phase B orchestration.

External collaborators (node:crypto, sharp, JSON.parse, zod, the filesystem)
are modelled as explicit parameters or as explicit state; machine arithmetic
that the source performs on JavaScript numbers is modelled exactly over
`Nat`/`Int`/`Rat`.
-/

set_option autoImplicit false

namespace Looker

/-! ## JavaScript JSON values and `JSON.stringify`

`cache.ts` builds its cache key with
`JSON.stringify({url, viewport, captureOpts}, Object.keys({url, viewport, captureOpts}).sort())`.
Per ECMA-262 §25.5.2, a *string array* passed as the `replacer` argument is a
property whitelist (`PropertyList`) that is applied to **every** object level
of the serialized value, and fixes the member order.  The model below follows
that specification: `applyReplacer` performs the whitelist pass and
`serialize` is plain serialization (members with `undefined` values are
dropped; `undefined` array elements print as `null`).
-/

/-- JSON-representable JavaScript values, plus `undefined`. -/
inductive JsValue where
  | undefined : JsValue
  | null : JsValue
  | bool (b : Bool) : JsValue
  | num (n : Int) : JsValue
  | str (s : String) : JsValue
  | arr (elems : List JsValue) : JsValue
  | obj (members : List (String × JsValue)) : JsValue

/-- First member of an object with the given key (JS object property lookup). -/
def lookupAssoc {α : Type} (fields : List (String × α)) (k : String) : Option α :=
  match fields with
  | [] => none
  | (k', v) :: rest => if k' = k then some v else lookupAssoc rest k

/-- One hexadecimal digit. -/
def hexDigit (n : Nat) : Char :=
  if n < 10 then Char.ofNat (48 + n) else Char.ofNat (97 + (n - 10))

/-- Four-digit hexadecimal rendering used by `\uXXXX` escapes. -/
def hex4 (n : Nat) : String :=
  String.mk [hexDigit (n / 4096 % 16), hexDigit (n / 256 % 16),
    hexDigit (n / 16 % 16), hexDigit (n % 16)]

/-- ECMA-262 `QuoteJSONString` escaping for a single character. -/
def escapeJSONChar (c : Char) : String :=
  if c = '"' then "\\\""
  else if c = '\\' then "\\\\"
  else if c = Char.ofNat 8 then "\\b"
  else if c = Char.ofNat 9 then "\\t"
  else if c = Char.ofNat 10 then "\\n"
  else if c = Char.ofNat 12 then "\\f"
  else if c = Char.ofNat 13 then "\\r"
  else if c.toNat < 32 then "\\u" ++ hex4 c.toNat
  else String.singleton c

/-- ECMA-262 `QuoteJSONString`. -/
def quoteJSONString (s : String) : String :=
  "\"" ++ String.join (s.data.map escapeJSONChar) ++ "\""

/-- Keep exactly the whitelisted keys of an already-transformed member list,
in `PropertyList` order (ECMA-262 `SerializeJSONObject` with `PropertyList`). -/
def orderFields (plist : List String) (fields : List (String × JsValue)) :
    List (String × JsValue) :=
  plist.filterMap (fun k => (lookupAssoc fields k).map (fun v => (k, v)))

mutual

/-- Apply a string-array replacer (`PropertyList`) at every object level. -/
def applyReplacer (plist : List String) : JsValue → JsValue
  | .arr xs => .arr (applyReplacerList plist xs)
  | .obj fs => .obj (orderFields plist (applyReplacerMembers plist fs))
  | v => v

def applyReplacerList (plist : List String) : List JsValue → List JsValue
  | [] => []
  | v :: vs => applyReplacer plist v :: applyReplacerList plist vs

def applyReplacerMembers (plist : List String) :
    List (String × JsValue) → List (String × JsValue)
  | [] => []
  | (k, v) :: fs => (k, applyReplacer plist v) :: applyReplacerMembers plist fs

end

mutual

/-- ECMA-262 `SerializeJSONProperty` (no replacer, no gap): `none` models the
serialization of `undefined`. -/
def serialize : JsValue → Option String
  | .undefined => none
  | .null => some "null"
  | .bool b => some (cond b "true" "false")
  | .num n => some (toString n)
  | .str s => some (quoteJSONString s)
  | .arr xs => some ("[" ++ String.intercalate "," (serializeList xs) ++ "]")
  | .obj fs => some ("\x7b" ++ String.intercalate "," (serializeMembers fs) ++ "\x7d")

/-- Array elements: `undefined` elements serialize as `null`. -/
def serializeList : List JsValue → List String
  | [] => []
  | v :: vs => (serialize v).getD "null" :: serializeList vs

/-- Object members: members whose value serializes to `undefined` are skipped. -/
def serializeMembers : List (String × JsValue) → List String
  | [] => []
  | (k, v) :: fs =>
    match serialize v with
    | none => serializeMembers fs
    | some s => (quoteJSONString k ++ ":" ++ s) :: serializeMembers fs

end

/-- `JSON.stringify(value, plist)` for a string-array replacer. -/
def jsonStringify (plist : List String) (v : JsValue) : Option String :=
  serialize (applyReplacer plist v)

/-! ## Data model (`src/types.ts`) -/

/-- `ViewportConfig` from `types.ts`. -/
structure ViewportConfig where
  name : String
  width : Nat
  height : Nat
deriving DecidableEq, Repr

/-- `CaptureOptions` from `types.ts`; `none` models an absent optional field. -/
structure CaptureOptions where
  delay : Option Nat := none
  waitFor : Option String := none
  hideSelectors : Option (List String) := none
  noAnimations : Option Bool := none
  darkMode : Option Bool := none
  timeout : Option Nat := none
  scrollReveal : Option Bool := none
deriving DecidableEq, Repr

/-- The JS object a `ViewportConfig` denotes. -/
def ViewportConfig.toJs (v : ViewportConfig) : JsValue :=
  .obj [("name", .str v.name), ("width", .num v.width), ("height", .num v.height)]

/-- A member list entry for an optional field: absent fields are omitted. -/
def optMember (k : String) : Option JsValue → List (String × JsValue)
  | none => []
  | some j => [(k, j)]

/-- The JS object a `CaptureOptions` denotes (schema field order). -/
def CaptureOptions.toJs (o : CaptureOptions) : JsValue :=
  .obj (optMember "delay" (o.delay.map (fun n => .num n))
    ++ optMember "waitFor" (o.waitFor.map .str)
    ++ optMember "hideSelectors" (o.hideSelectors.map (fun l => .arr (l.map .str)))
    ++ optMember "noAnimations" (o.noAnimations.map .bool)
    ++ optMember "darkMode" (o.darkMode.map .bool)
    ++ optMember "timeout" (o.timeout.map (fun n => .num n))
    ++ optMember "scrollReveal" (o.scrollReveal.map .bool))

/-! ## `ScreenshotCache.generateKey` (`src/cache.ts`, lines 52-58)

```ts
generateKey(url, viewport, captureOpts?) {
  const data = JSON.stringify(
    { url, viewport, captureOpts },
    Object.keys({ url, viewport, captureOpts }).sort(),
  );
  return createHash('sha256').update(data).digest('hex').slice(0, 16);
}
```
`Object.keys({url, viewport, captureOpts}).sort()` is
`["captureOpts", "url", "viewport"]` (the property exists even when the
argument is `undefined`).  The truncated SHA-256 digest from `node:crypto` is
an external collaborator and is modelled as an arbitrary function of the
serialized data. -/

/-- The exact string handed to the hash by `generateKey`. -/
def generateKeyData (url : String) (viewport : ViewportConfig)
    (captureOpts : Option CaptureOptions) : String :=
  (jsonStringify ["captureOpts", "url", "viewport"]
    (.obj [("url", .str url), ("viewport", viewport.toJs),
      ("captureOpts", match captureOpts with
        | some o => o.toJs
        | none => .undefined)])).getD ""

/-- `generateKey`, parametrized by the (external) hex digest function. -/
def generateKey (hash : String → String) (url : String) (viewport : ViewportConfig)
    (captureOpts : Option CaptureOptions) : String :=
  hash (generateKeyData url viewport captureOpts)

/-- Capture options used in the collision evidence: `delay: 500`. -/
def sampleOptsA : CaptureOptions := { delay := some 500 }

/-- Capture options used in the collision evidence: `delay: 9`. -/
def sampleOptsB : CaptureOptions := { delay := some 9 }

/-- C1: refuted — the claim that `generateKey` returns different keys for two
requests differing only in the viewport (or only in a capture-option field) is
false.  The sorted key array passed as `JSON.stringify`'s second argument is a
*property whitelist applied at every nesting level* (ECMA-262 §25.5.2), so the
members of `viewport` and `captureOpts` are dropped and both serialize as
`{}`: the hashed data — hence the key, for every digest function — depends
only on `url` and on whether `captureOpts` is present at all.  Evidence at an
explicit input: same url, mobile 375x812 vs desktop 1440x900, and
`delay: 500` vs `delay: 9`, all produce identical keys. -/
theorem generateKey_collides_across_viewports_and_options :
    ∀ hash : String → String,
      generateKey hash "https://example.com/" ⟨"mobile", 375, 812⟩ none
          = generateKey hash "https://example.com/" ⟨"desktop", 1440, 900⟩ none
        ∧ generateKey hash "https://example.com/" ⟨"mobile", 375, 812⟩ (some sampleOptsA)
          = generateKey hash "https://example.com/" ⟨"mobile", 375, 812⟩ (some sampleOptsB)
        ∧ (⟨"mobile", 375, 812⟩ : ViewportConfig) ≠ ⟨"desktop", 1440, 900⟩
        ∧ sampleOptsA ≠ sampleOptsB := by
  intro hash
  refine ⟨congrArg hash (by rfl), congrArg hash (by rfl), by decide, by decide⟩

/-! ## `retryWithBackoff` (`src/retry.ts`, lines 14-40)

```ts
for (let attempt = 1; attempt <= attempts; attempt++) {
  try { return await fn(); }
  catch (error) {
    lastError = error;
    if (attempt === attempts) break;
    opts.onRetry?.(error, attempt);
    ... sleep ...
  }
}
throw lastError;
```
The operation is modelled as `fn : Nat → Except ε α`, giving the outcome of
the `i`-th invocation (`i` starting at 1).  The sleeps and the observer do not
influence control flow and are elided; `Except (Option ε) α` is the outcome of
the call (`.error none` models throwing the never-assigned `lastError` when
`attempts < 1`).  The second component counts how many times `fn` ran. -/

/-- The retry loop from `retryWithBackoff`, started at `attempt`. -/
def retryLoop {ε α : Type} (fn : Nat → Except ε α) (attempts : Nat) (attempt : Nat)
    (lastError : Option ε) : Except (Option ε) α × Nat :=
  if attempts < attempt then (.error lastError, 0)
  else
    match fn attempt with
    | .ok v => (.ok v, 1)
    | .error e =>
      if attempt = attempts then (.error (some e), 1)
      else
        let r := retryLoop fn attempts (attempt + 1) (some e)
        (r.1, r.2 + 1)
termination_by attempts + 1 - attempt

/-- `retryWithBackoff fn attempts`: result and number of invocations of `fn`. -/
def retryWithBackoff {ε α : Type} (fn : Nat → Except ε α) (attempts : Nat) :
    Except (Option ε) α × Nat :=
  retryLoop fn attempts 1 none

/-- Helper for C4: if every invocation from `attempt` through `attempts`
fails, the loop performs exactly the remaining invocations and ends with the
error of the final one, unwrapped. -/
theorem retryLoop_all_fail {ε α : Type} (fn : Nat → Except ε α) (attempts : Nat)
    (e : ε) (hlast : fn attempts = Except.error e) :
    ∀ (k attempt : Nat) (lastErr : Option ε), attempt + k = attempts →
      (∀ i, attempt ≤ i → i ≤ attempts → ∃ e', fn i = Except.error e') →
      retryLoop fn attempts attempt lastErr = (Except.error (some e), k + 1) := by
  intro k
  induction k with
  | zero =>
    intro attempt lastErr hk _
    have ha : attempt = attempts := by omega
    subst ha
    rw [retryLoop, if_neg (by omega), hlast]
    simp
  | succ k ih =>
    intro attempt lastErr hk hfail
    obtain ⟨e', he'⟩ := hfail attempt (le_refl _) (by omega)
    rw [retryLoop, if_neg (by omega), he']
    have hrec := ih (attempt + 1) (some e') (by omega)
      (fun i h1 h2 => hfail i (by omega) h2)
    simp only [if_neg (show ¬attempt = attempts by omega), hrec]

/-- C4: an operation failing on every invocation is invoked exactly
`attempts` times (`attempts ≥ 1`) and the error thrown is exactly the error
of the final invocation, with no wrapping. -/
theorem retry_exhausts_attempts_and_rethrows_last {ε α : Type}
    (fn : Nat → Except ε α) (attempts : Nat) (h1 : 1 ≤ attempts)
    (hfail : ∀ i, 1 ≤ i → i ≤ attempts → ∃ e', fn i = Except.error e')
    (e : ε) (hlast : fn attempts = Except.error e) :
    retryWithBackoff fn attempts = (Except.error (some e), attempts) := by
  have h := retryLoop_all_fail fn attempts e hlast (attempts - 1) 1 none
    (by omega) hfail
  rw [retryWithBackoff, h]
  congr 1
  omega

/-- C4 witness: with `attempts = 2` and an operation that always throws
`"boom"`, the retrier invokes it exactly twice and rethrows `"boom"`. -/
theorem retry_exhausts_attempts_witness :
    retryWithBackoff (fun _ => (Except.error "boom" : Except String Nat)) 2
      = (Except.error (some "boom"), 2) :=
  retry_exhausts_attempts_and_rethrows_last (fun _ => Except.error "boom") 2
    (by omega) (fun _ _ _ => ⟨"boom", rfl⟩) "boom" rfl

/-! ## `ScreenshotCache` state (`src/cache.ts`)

The filesystem is explicit state: an association of paths to byte contents.
`Buffer`s are byte lists.  `path.join`/`path.resolve` reduce, for the
relative names the cache uses (`manifest.json`, `<key>.png`), to appending
the name to the cache directory with a separator; `Date.now()` is a `now`
parameter.  `JSON.stringify(manifest, null, 2)` pretty-prints with a 2-space
gap; the model serializes the same manifest without the inter-token
whitespace, which affects no compared equality. -/

/-- Byte buffers. -/
abbrev Bytes := List Nat

/-- JS object property assignment `obj[k] = v`: replace in place or append. -/
def setAssoc {α : Type} (fields : List (String × α)) (k : String) (v : α) :
    List (String × α) :=
  match fields with
  | [] => [(k, v)]
  | (k', v') :: rest =>
    if k' = k then (k, v) :: rest else (k', v') :: setAssoc rest k v

/-- JS `delete obj[k]` (object keys are unique, so dropping every binding of
`k` coincides with deleting the property). -/
def delAssoc {α : Type} (fields : List (String × α)) (k : String) :
    List (String × α) :=
  fields.filter (fun p => !(p.1 == k))

/-- The on-disk state the cache touches. -/
structure FileSystem where
  files : List (String × Bytes)

/-- `existsSync`. -/
def FileSystem.existsSync (fs : FileSystem) (p : String) : Bool :=
  (lookupAssoc fs.files p).isSome

/-- `readFile` (`none` models the rejected promise). -/
def FileSystem.readFile (fs : FileSystem) (p : String) : Option Bytes :=
  lookupAssoc fs.files p

/-- `writeFile`. -/
def FileSystem.writeFile (fs : FileSystem) (p : String) (b : Bytes) : FileSystem :=
  ⟨setAssoc fs.files p b⟩

/-- `CacheManifestEntry` from `cache.ts`. -/
structure CacheManifestEntry where
  url : String
  viewport : ViewportConfig
  timestamp : Nat
  filePath : String
deriving DecidableEq, Repr

/-- The `ScreenshotCache` instance state: resolved cache directory, in-memory
manifest entries, and the `disabled` flag. -/
structure ScreenshotCache where
  cacheDir : String
  manifest : List (String × CacheManifestEntry) := []
  disabled : Bool := false

/-- `path.join dir name` for the relative names the cache uses. -/
def joinPath (dir name : String) : String :=
  dir ++ "/" ++ name

/-- `join(this.cacheDir, MANIFEST_FILE)`. -/
def ScreenshotCache.manifestPath (c : ScreenshotCache) : String :=
  joinPath c.cacheDir "manifest.json"

/-- The JS object a manifest entry denotes. -/
def CacheManifestEntry.toJs (e : CacheManifestEntry) : JsValue :=
  .obj [("url", .str e.url), ("viewport", e.viewport.toJs),
    ("timestamp", .num e.timestamp), ("filePath", .str e.filePath)]

/-- The manifest document `{entries: {...}}` as a JS value. -/
def manifestToJs (m : List (String × CacheManifestEntry)) : JsValue :=
  .obj [("entries", .obj (m.map (fun p => (p.1, p.2.toJs))))]

/-- Bytes of a string written with `writeFile(path, string)`. -/
def stringToBytes (s : String) : Bytes :=
  s.data.map Char.toNat

/-- The serialized manifest document. -/
def manifestDoc (m : List (String × CacheManifestEntry)) : Bytes :=
  stringToBytes ((serialize (manifestToJs m)).getD "")

/-- `saveManifest` (`cache.ts`, lines 111-114). -/
def ScreenshotCache.saveManifest (c : ScreenshotCache) (fs : FileSystem) : FileSystem :=
  fs.writeFile c.manifestPath (manifestDoc c.manifest)

/-- `getCached` (`cache.ts`, lines 60-79).  Returns the updated in-memory
state, the (untouched) filesystem, and the buffer or `null`.  The final
`match` models the `try`/`catch` around `readFile`. -/
def ScreenshotCache.getCached (c : ScreenshotCache) (fs : FileSystem) (key : String) :
    ScreenshotCache × FileSystem × Option Bytes :=
  if c.disabled then (c, fs, none)
  else
    match lookupAssoc c.manifest key with
    | none => (c, fs, none)
    | some entry =>
      let filePath := joinPath c.cacheDir entry.filePath
      if fs.existsSync filePath = false then
        ({ c with manifest := delAssoc c.manifest key }, fs, none)
      else
        match fs.readFile filePath with
        | some buffer => (c, fs, some buffer)
        | none => (c, fs, none)

/-- `setCached` (`cache.ts`, lines 81-103).  Note the source checks
`this.disabled` in `init` and `getCached` but **not** here: the write, the
manifest upsert and the persist happen unconditionally. -/
def ScreenshotCache.setCached (c : ScreenshotCache) (fs : FileSystem) (key : String)
    (screenshot : Bytes) (url : String) (viewport : ViewportConfig) (now : Nat) :
    ScreenshotCache × FileSystem × String :=
  let fileName := key ++ ".png"
  let filePath := joinPath c.cacheDir fileName
  let fs1 := fs.writeFile filePath screenshot
  let c1 := { c with
    manifest := setAssoc c.manifest key ⟨url, viewport, now, fileName⟩ }
  let fs2 := c1.saveManifest fs1
  (c1, fs2, filePath)

/-! ### Association-list and path lemmas -/

theorem lookup_setAssoc_self {α : Type} (l : List (String × α)) (k : String) (v : α) :
    lookupAssoc (setAssoc l k v) k = some v := by
  induction l with
  | nil => simp [setAssoc, lookupAssoc]
  | cons p rest ih =>
    by_cases h : p.1 = k
    · simp [setAssoc, lookupAssoc, h]
    · simp [setAssoc, lookupAssoc, h, ih]

theorem lookup_setAssoc_ne {α : Type} (l : List (String × α)) (k k' : String) (v : α)
    (h : k' ≠ k) : lookupAssoc (setAssoc l k v) k' = lookupAssoc l k' := by
  have hkk : ¬k = k' := fun he => h he.symm
  induction l with
  | nil => simp [setAssoc, lookupAssoc, hkk]
  | cons p rest ih =>
    obtain ⟨k0, v0⟩ := p
    by_cases hp : k0 = k
    · have hk0 : ¬k0 = k' := fun he => h (he ▸ hp)
      simp [setAssoc, lookupAssoc, hp, hk0, hkk]
    · simp [setAssoc, lookupAssoc, hp, ih]

theorem lookup_delAssoc_self {α : Type} (l : List (String × α)) (k : String) :
    lookupAssoc (delAssoc l k) k = none := by
  induction l with
  | nil => simp [delAssoc, lookupAssoc]
  | cons p rest ih =>
    by_cases h : p.1 = k
    · simpa [delAssoc, lookupAssoc, h] using ih
    · simpa [delAssoc, lookupAssoc, h] using ih

/-- No cached blob name collides with the manifest file name. -/
theorem key_png_ne_manifest_json (k : String) : k ++ ".png" ≠ "manifest.json" := by
  intro h
  have hd : k.data ++ ".png".data = "manifest.".data ++ "json".data := by
    have := congrArg String.data h
    rw [String.data_append] at this
    exact this.trans (by decide)
  have := (List.append_inj' hd (by decide)).2
  exact absurd this (by decide)

/-- The blob path written by `setCached` is distinct from the manifest path. -/
theorem blobPath_ne_manifestPath (c : ScreenshotCache) (k : String) :
    joinPath c.cacheDir (k ++ ".png") ≠ c.manifestPath := by
  intro h
  have hd := congrArg String.data h
  rw [joinPath, ScreenshotCache.manifestPath, joinPath, String.data_append,
    String.data_append] at hd
  exact key_png_ne_manifest_json k (String.ext (List.append_cancel_left hd))

/-! ### Cache claim theorems -/

/-- C5: on a cache that is not disabled, `setCached k b ...` followed by
`getCached k` (no intervening mutation) returns exactly the stored bytes:
the blob write survives the manifest persist (distinct paths) and the
manifest upsert makes the lookup hit. -/
theorem cache_set_then_get_returns_bytes (c : ScreenshotCache) (fs : FileSystem)
    (key : String) (b : Bytes) (url : String) (vp : ViewportConfig) (now : Nat)
    (hdis : c.disabled = false) :
    ((c.setCached fs key b url vp now).1.getCached
        (c.setCached fs key b url vp now).2.1 key).2.2 = some b := by
  have hne : joinPath c.cacheDir (key ++ ".png")
      ≠ joinPath c.cacheDir "manifest.json" :=
    blobPath_ne_manifestPath c key
  have hlk : ∀ (l : List (String × Bytes)) (v : Bytes),
      lookupAssoc (setAssoc l (joinPath c.cacheDir "manifest.json") v)
          (joinPath c.cacheDir (key ++ ".png"))
        = lookupAssoc l (joinPath c.cacheDir (key ++ ".png")) :=
    fun l v => lookup_setAssoc_ne l _ _ v hne
  simp only [ScreenshotCache.setCached, ScreenshotCache.getCached,
    ScreenshotCache.saveManifest, ScreenshotCache.manifestPath,
    FileSystem.writeFile, FileSystem.existsSync, FileSystem.readFile, hdis,
    lookup_setAssoc_self, hlk]
  simp

/-- C5 witness: a concrete enabled cache round-trips the bytes `[7, 8]`. -/
theorem cache_set_then_get_returns_bytes_witness :
    (((⟨"/looker-cache", [], false⟩ : ScreenshotCache).setCached ⟨[]⟩ "abc" [7, 8]
        "https://example.com/" ⟨"mobile", 375, 812⟩ 5).1.getCached
        ((⟨"/looker-cache", [], false⟩ : ScreenshotCache).setCached ⟨[]⟩ "abc" [7, 8]
          "https://example.com/" ⟨"mobile", 375, 812⟩ 5).2.1 "abc").2.2
      = some [7, 8] :=
  cache_set_then_get_returns_bytes ⟨"/looker-cache", [], false⟩ ⟨[]⟩ "abc" [7, 8]
    "https://example.com/" ⟨"mobile", 375, 812⟩ 5 rfl

/-- C6: on a cache that is not disabled, a manifest entry whose backing file
is missing makes `getCached` return a miss without throwing, drop exactly
that entry from the in-memory manifest, and leave the filesystem — in
particular the on-disk manifest document — untouched. -/
theorem cache_stale_entry_is_miss (c : ScreenshotCache) (fs : FileSystem)
    (key : String) (entry : CacheManifestEntry) (hdis : c.disabled = false)
    (hent : lookupAssoc c.manifest key = some entry)
    (hmiss : fs.existsSync (joinPath c.cacheDir entry.filePath) = false) :
    c.getCached fs key = ({ c with manifest := delAssoc c.manifest key }, fs, none)
      ∧ lookupAssoc (delAssoc c.manifest key) key = none := by
  refine ⟨?_, lookup_delAssoc_self _ _⟩
  simp only [ScreenshotCache.getCached, hdis, hent, hmiss]
  simp

/-- C6 witness: a concrete stale entry (`k.png` absent from an empty
filesystem) is dropped and reported as a miss. -/
theorem cache_stale_entry_is_miss_witness :
    (⟨"/looker-cache", [("k", ⟨"https://example.com/", ⟨"mobile", 375, 812⟩, 0, "k.png"⟩)],
        false⟩ : ScreenshotCache).getCached ⟨[]⟩ "k"
        = ({ cacheDir := "/looker-cache", manifest := [], disabled := false },
            (⟨[]⟩ : FileSystem), none)
      ∧ lookupAssoc
          (delAssoc [("k", (⟨"https://example.com/", ⟨"mobile", 375, 812⟩, 0,
            "k.png"⟩ : CacheManifestEntry))] "k") "k" = none := by
  have h := cache_stale_entry_is_miss
    ⟨"/looker-cache", [("k", ⟨"https://example.com/", ⟨"mobile", 375, 812⟩, 0, "k.png"⟩)],
      false⟩ ⟨[]⟩ "k" ⟨"https://example.com/", ⟨"mobile", 375, 812⟩, 0, "k.png"⟩
    rfl rfl rfl
  exact ⟨by rw [h.1]; rfl, h.2⟩

/-- C2: refuted on the store side — the claim that a disabled cache makes
`setCached` a no-op is false.  `init` and `getCached` check `this.disabled`
but `setCached` does not: on a disabled cache it still writes the blob file,
mutates the in-memory manifest, and persists the manifest document.  (The
lookup side of the claim does hold: the first conjunct shows `getCached`
reporting a miss on the disabled cache.)  Evaluated at an explicit input. -/
theorem setCached_on_disabled_cache_is_not_noop :
    ((⟨"/looker-cache", [], true⟩ : ScreenshotCache).getCached ⟨[]⟩ "k").2.2 = none
      ∧ ((⟨"/looker-cache", [], true⟩ : ScreenshotCache).setCached ⟨[]⟩ "k" [1, 2, 3]
          "https://example.com/" ⟨"mobile", 375, 812⟩ 0).1.manifest ≠ []
      ∧ ((⟨"/looker-cache", [], true⟩ : ScreenshotCache).setCached ⟨[]⟩ "k" [1, 2, 3]
          "https://example.com/" ⟨"mobile", 375, 812⟩ 0).2.1.readFile
          (joinPath "/looker-cache" "k.png") = some [1, 2, 3]
      ∧ ((⟨"/looker-cache", [], true⟩ : ScreenshotCache).setCached ⟨[]⟩ "k" [1, 2, 3]
          "https://example.com/" ⟨"mobile", 375, 812⟩ 0).2.1.readFile
          (joinPath "/looker-cache" "manifest.json")
          ≠ none := by
  refine ⟨rfl, by decide, by decide, by decide⟩

/-! ## `resizeIfNeeded` (`src/capture.ts`, lines 63-114)

The `sharp` image library is an external collaborator: its metadata probe and
its three re-encode pipelines are parameters (`SharpOps`).  JavaScript number
arithmetic (`MAX / width`, `width * scale`, `Math.round`, `width * 0.7`) is
modelled exactly over `ℚ`/`ℤ`; `Math.round` on the nonnegative values involved
rounds half up. -/

/-- `MAX_IMAGE_BYTES = 5 * 1024 * 1024` (`capture.ts`, line 18). -/
def MAX_IMAGE_BYTES : Nat := 5 * 1024 * 1024

/-- `MAX_IMAGE_DIMENSION = 7800` (`capture.ts`, line 19). -/
def MAX_IMAGE_DIMENSION : Nat := 7800

/-- JS `Math.round` (half up) on the nonnegative values used here. -/
def jsRound (q : ℚ) : ℤ := ⌊q + 1 / 2⌋

/-- The `sharp` operations `resizeIfNeeded` drives, as abstract functions:
`metadata()` width/height, `resize({width, height}).png().toBuffer()`,
`png({quality}).toBuffer()`, and `resize({width}).png({quality}).toBuffer()`. -/
structure SharpOps where
  metaWidth : Bytes → Option Nat
  metaHeight : Bytes → Option Nat
  resizePng : Bytes → ℤ → ℤ → Bytes
  pngQuality : Bytes → Nat → Bytes
  resizeWidthPngQuality : Bytes → ℤ → Nat → Bytes

/-- `Math.min(MAX / origWidth, MAX / origHeight)` (lines 72-75). -/
def resizeScale (w h : Nat) : ℚ :=
  min ((MAX_IMAGE_DIMENSION : ℚ) / w) ((MAX_IMAGE_DIMENSION : ℚ) / h)

/-- Phase 1 of `resizeIfNeeded` (lines 64-87): dimension enforcement. -/
def resizePhase1 (ops : SharpOps) (buffer : Bytes) : Bytes :=
  let origWidth := (ops.metaWidth buffer).getD 0
  let origHeight := (ops.metaHeight buffer).getD 0
  if MAX_IMAGE_DIMENSION < origWidth ∨ MAX_IMAGE_DIMENSION < origHeight then
    let scale := resizeScale origWidth origHeight
    let newWidth := jsRound (origWidth * scale)
    let newHeight := jsRound (origHeight * scale)
    ops.resizePng buffer newWidth newHeight
  else buffer

/-- The quality-reduction loop of phase 2 (lines 94-100): re-encode `current`
at qualities 80, 70, ... while the result stays over the byte limit and the
quality stays above 20. -/
def qualityLoop (ops : SharpOps) (current result : Bytes) (quality : Nat) : Bytes :=
  if h : MAX_IMAGE_BYTES < result.length ∧ 20 < quality then
    qualityLoop ops current (ops.pngQuality current quality) (quality - 10)
  else result
termination_by quality
decreasing_by omega

/-- The last-resort dimension reduction of phase 2 (lines 103-110): resize
`current` to 70% of its width and re-encode at quality 60. -/
def finalFallback (ops : SharpOps) (current : Bytes) : Bytes :=
  let width := (ops.metaWidth current).getD 1440
  ops.resizeWidthPngQuality current (jsRound ((width : ℚ) * (7 / 10))) 60

/-- `resizeIfNeeded` (lines 63-114).  Note the source returns the fallback
re-encode without re-checking its size. -/
def resizeIfNeeded (ops : SharpOps) (buffer : Bytes) : Bytes :=
  let current := resizePhase1 ops buffer
  if current.length ≤ MAX_IMAGE_BYTES then current
  else
    let result := qualityLoop ops current current 80
    if MAX_IMAGE_BYTES < result.length then finalFallback ops current
    else result

/-- Rounding half-up never overshoots an integer bound. -/
theorem jsRound_le_of_le {q : ℚ} {n : ℤ} (h : q ≤ n) : jsRound q ≤ n := by
  have h2 : ⌊q + 1 / 2⌋ < n + 1 := Int.floor_lt.mpr (by push_cast; linarith)
  rw [jsRound]
  omega

/-- The uniform scale keeps the scaled width within the limit. -/
theorem width_mul_scale_le (w h : Nat) (hw0 : 0 < w) :
    (w : ℚ) * resizeScale w h ≤ (MAX_IMAGE_DIMENSION : ℚ) := by
  have hwq : (0 : ℚ) < w := by exact_mod_cast hw0
  have h1 : resizeScale w h ≤ (MAX_IMAGE_DIMENSION : ℚ) / w := min_le_left _ _
  calc (w : ℚ) * resizeScale w h
      ≤ (w : ℚ) * ((MAX_IMAGE_DIMENSION : ℚ) / w) :=
        mul_le_mul_of_nonneg_left h1 (le_of_lt hwq)
    _ = (MAX_IMAGE_DIMENSION : ℚ) := by field_simp

/-- The uniform scale keeps the scaled height within the limit. -/
theorem height_mul_scale_le (w h : Nat) (hh0 : 0 < h) :
    (h : ℚ) * resizeScale w h ≤ (MAX_IMAGE_DIMENSION : ℚ) := by
  have hhq : (0 : ℚ) < h := by exact_mod_cast hh0
  have h1 : resizeScale w h ≤ (MAX_IMAGE_DIMENSION : ℚ) / h := min_le_right _ _
  calc (h : ℚ) * resizeScale w h
      ≤ (h : ℚ) * ((MAX_IMAGE_DIMENSION : ℚ) / h) :=
        mul_le_mul_of_nonneg_left h1 (le_of_lt hhq)
    _ = (MAX_IMAGE_DIMENSION : ℚ) := by field_simp

/-- C9: for an image whose width or height (both positive) exceeds the
maximum side length, phase 1 resizes by the single uniform factor
`min(MAX/width, MAX/height)`: the requested output dimensions are exactly
`round(width * s) x round(height * s)` — aspect ratio preserved within
rounding — and neither exceeds `MAX_IMAGE_DIMENSION`.  (Positivity matches
real raster inputs; it rules out the `metadata.width ?? 0` degenerate default,
where JS division by zero would yield `Infinity` rather than a rational.) -/
theorem resizePhase1_uniform_scale_and_dimension_bound (ops : SharpOps)
    (buffer : Bytes) (w h : Nat)
    (hw : ops.metaWidth buffer = some w) (hh : ops.metaHeight buffer = some h)
    (hw0 : 0 < w) (hh0 : 0 < h)
    (hex : MAX_IMAGE_DIMENSION < w ∨ MAX_IMAGE_DIMENSION < h) :
    resizePhase1 ops buffer
        = ops.resizePng buffer (jsRound (w * resizeScale w h))
            (jsRound (h * resizeScale w h))
      ∧ jsRound ((w : ℚ) * resizeScale w h) ≤ (MAX_IMAGE_DIMENSION : ℤ)
      ∧ jsRound ((h : ℚ) * resizeScale w h) ≤ (MAX_IMAGE_DIMENSION : ℤ) := by
  refine ⟨?_, ?_, ?_⟩
  · simp only [resizePhase1, hw, hh, Option.getD_some, if_pos hex]
  · exact jsRound_le_of_le (by exact_mod_cast width_mul_scale_le w h hw0)
  · exact jsRound_le_of_le (by exact_mod_cast height_mul_scale_le w h hh0)

/-- C9 witness: a 15600x7800 input is scheduled for a resize to
`round(15600 * 1/2) x round(7800 * 1/2)`, both within the limit. -/
theorem resizePhase1_dimension_bound_witness :
    resizePhase1 ⟨fun _ => some 15600, fun _ => some 7800, fun _ _ _ => [],
          fun _ _ => [], fun _ _ _ => []⟩ [0]
        = (⟨fun _ => some 15600, fun _ => some 7800, fun _ _ _ => [],
            fun _ _ => [], fun _ _ _ => []⟩ : SharpOps).resizePng [0]
            (jsRound (15600 * resizeScale 15600 7800))
            (jsRound (7800 * resizeScale 15600 7800))
      ∧ jsRound ((15600 : ℚ) * resizeScale 15600 7800) ≤ (MAX_IMAGE_DIMENSION : ℤ)
      ∧ jsRound ((7800 : ℚ) * resizeScale 15600 7800) ≤ (MAX_IMAGE_DIMENSION : ℤ) :=
  resizePhase1_uniform_scale_and_dimension_bound _ [0] 15600 7800 rfl rfl
    (by decide) (by decide) (Or.inl (by decide))

/-- An adversarial `sharp` whose every re-encode still exceeds the byte
limit (e.g. incompressible noise): all pipelines return a buffer one byte
over the limit. -/
def opsIncompressible : SharpOps :=
  ⟨fun _ => some 100, fun _ => some 100,
    fun _ _ _ => List.replicate (MAX_IMAGE_BYTES + 1) 0,
    fun _ _ => List.replicate (MAX_IMAGE_BYTES + 1) 0,
    fun _ _ _ => List.replicate (MAX_IMAGE_BYTES + 1) 0⟩

/-- C3: refuted — the normalizer does not guarantee the byte bound.  If the
quality ladder and the final 70%-width re-encode all fail to compress below
the limit (which depends on image content, not on the code), `resizeIfNeeded`
returns the final re-encode unchecked: here an input one byte over the limit
(at 100x100, so dimensions are not the issue) comes out still over the
limit. -/
theorem resizeIfNeeded_size_bound_counterexample :
    MAX_IMAGE_BYTES < (List.replicate (MAX_IMAGE_BYTES + 1) (0 : Nat)).length
      ∧ MAX_IMAGE_BYTES
        < (resizeIfNeeded opsIncompressible
            (List.replicate (MAX_IMAGE_BYTES + 1) 0)).length := by
  have hlen : (List.replicate (MAX_IMAGE_BYTES + 1) (0 : Nat)).length
      = MAX_IMAGE_BYTES + 1 := List.length_replicate _ _
  have hphase1 : resizePhase1 opsIncompressible (List.replicate (MAX_IMAGE_BYTES + 1) 0)
      = List.replicate (MAX_IMAGE_BYTES + 1) 0 := by
    simp [resizePhase1, opsIncompressible, MAX_IMAGE_DIMENSION]
  have hloop : ∀ q, qualityLoop opsIncompressible (List.replicate (MAX_IMAGE_BYTES + 1) 0)
      (List.replicate (MAX_IMAGE_BYTES + 1) 0) q = List.replicate (MAX_IMAGE_BYTES + 1) 0 := by
    intro q
    induction q using Nat.strong_induction_on with
    | _ q ih =>
      rw [qualityLoop]
      split
      · next hcond =>
        exact ih (q - 10) (by omega)
      · rfl
  have hout : resizeIfNeeded opsIncompressible (List.replicate (MAX_IMAGE_BYTES + 1) 0)
      = List.replicate (MAX_IMAGE_BYTES + 1) 0 := by
    rw [resizeIfNeeded]
    rw [hphase1]
    rw [if_neg (by rw [hlen]; omega)]
    rw [hloop 80]
    rw [if_pos (by rw [hlen]; omega)]
    rfl
  rw [hout, hlen]
  omega

/-- C3 amended: the byte bound holds exactly when the code's last resort
achieves it — if the final 70%-width quality-60 re-encode of the
(dimension-normalized) image is within the limit, then the normalizer's
output is within the limit; the quality ladder alone already sufficing is
also covered.  Nothing in the code re-checks or further reduces beyond that
final re-encode. -/
theorem resizeIfNeeded_size_bound_amended (ops : SharpOps) (buffer : Bytes)
    (hfb : (finalFallback ops (resizePhase1 ops buffer)).length ≤ MAX_IMAGE_BYTES) :
    (resizeIfNeeded ops buffer).length ≤ MAX_IMAGE_BYTES := by
  rw [resizeIfNeeded]
  dsimp only
  split
  · next hc => exact hc
  · split
    · next => exact hfb
    · next hc => omega

/-- C3 amended witness: with a `sharp` whose re-encodes return an empty
buffer and an empty input, the output respects the bound. -/
theorem resizeIfNeeded_size_bound_amended_witness :
    (resizeIfNeeded ⟨fun _ => none, fun _ => none, fun _ _ _ => [],
        fun _ _ => [], fun _ _ _ => []⟩ []).length ≤ MAX_IMAGE_BYTES :=
  resizeIfNeeded_size_bound_amended _ [] (by decide)

/-! ## Analysis orchestrator: Phase A and Phase B (run driver, `run`)

`run` pre-builds one `PageResult` per URL, runs Phase A (one bounded
concurrency task per (url, viewport) whose screenshot file exists, recording
a parsed analysis or an error *into that page's own result*), awaits
`Promise.all`, and only then maps Phase B comparison tasks over the pages
with more than one screenshot.

Embedding choices, each mirroring a structural fact of the source:
* analysis/comparison outcomes are oracles `String → String → Except String α`
  and `String → Except String β` — `analyzeScreenshot` is invoked on
  `(entry.filePath, url, entry.viewport, goals, config)`, all determined by
  the `(url, viewport-name)` pair within one run;
* every task body is a `try`/`catch` that turns failure into a recorded
  `PageError`, so a task is a *total* state transformer on its own page —
  nothing propagates to the caller of `run`, which the embedding reflects by
  `phaseA` being a total function returning one result per page;
* tasks of different pages write to different `PageResult`s and, within a
  page, to per-viewport slots, so the concurrent interleaving is equivalent
  to the sequential fold below up to the order of a page's `errors` list
  (all stated properties are membership facts, insensitive to that order);
* the `await Promise.all(analysisTasks)` barrier is the sequencing of
  `runTrace`: Phase A settle events (in an arbitrary completion order) strictly
  precede every Phase B start event. -/

/-- `ScreenshotEntry` from `types.ts`. -/
structure ScreenshotEntry where
  url : String
  viewport : ViewportConfig
  filePath : String
  timestamp : Nat
  cached : Bool
deriving DecidableEq, Repr

/-- One element of `PageResult.errors`: `{viewport, error}`. -/
structure PageError where
  viewport : String
  error : String
deriving DecidableEq, Repr

/-- `PageResult` from `types.ts`, generic in the analysis payloads. -/
structure PageResult (α β : Type) where
  url : String
  screenshots : List (String × ScreenshotEntry)
  analyses : List (String × α)
  crossViewportAnalysis : Option β
  errors : List PageError

/-- The pre-built result `run` creates for each URL (lines 50-60). -/
def initPageResult {α β : Type} (url : String)
    (screenshots : List (String × ScreenshotEntry)) : PageResult α β :=
  ⟨url, screenshots, [], none, []⟩

/-- One Phase A unit of work for a `(viewport-name, entry)` pair (lines
74-104): pre-flight existence check recording a missing-file error, else the
analysis call recording the parsed result or the caught error. -/
def phaseAStep {α β : Type} (existsFn : String → Bool)
    (oracle : String → String → Except String α) (url : String)
    (pr : PageResult α β) (vp : String × ScreenshotEntry) : PageResult α β :=
  if existsFn vp.2.filePath = false then
    { pr with errors := pr.errors
        ++ [⟨vp.1, "Screenshot file not found: " ++ vp.2.filePath⟩] }
  else
    match oracle url vp.1 with
    | .ok a => { pr with analyses := setAssoc pr.analyses vp.1 a }
    | .error m => { pr with errors := pr.errors ++ [⟨vp.1, m⟩] }

/-- All Phase A work for one page. -/
def processPage {α β : Type} (existsFn : String → Bool)
    (oracle : String → String → Except String α)
    (page : String × List (String × ScreenshotEntry)) : PageResult α β :=
  page.2.foldl (phaseAStep existsFn oracle page.1) (initPageResult page.1 page.2)

/-- Phase A over all pages; a total function — per-task failures are recorded
as data, never thrown to the caller of `run`. -/
def phaseA {α β : Type} (existsFn : String → Bool)
    (oracle : String → String → Except String α)
    (entries : List (String × List (String × ScreenshotEntry))) :
    List (PageResult α β) :=
  entries.map (processPage existsFn oracle)

/-- One Phase B comparison task (lines 118-137): record the comparison or the
caught error. -/
def phaseBStep {α β : Type} (oracleB : String → Except String β)
    (pr : PageResult α β) : PageResult α β :=
  match oracleB pr.url with
  | .ok b => { pr with crossViewportAnalysis := some b }
  | .error m => { pr with errors := pr.errors ++ [⟨"cross-viewport", m⟩] }

/-- The whole orchestration: Phase A, barrier, then Phase B on exactly the
pages with more than one screenshot (line 111: `p.screenshots.size > 1`). -/
def runPhases {α β : Type} (existsFn : String → Bool)
    (oracleA : String → String → Except String α)
    (oracleB : String → Except String β)
    (entries : List (String × List (String × ScreenshotEntry))) :
    List (PageResult α β) :=
  (phaseA existsFn oracleA entries).map
    (fun pr => if 1 < pr.screenshots.length then phaseBStep oracleB pr else pr)

/-! ### Phase A lemmas -/

/-- A Phase A step never removes a recorded error. -/
theorem phaseAStep_errors_mono {α β : Type} (existsFn : String → Bool)
    (oracle : String → String → Except String α) (url : String)
    (pr : PageResult α β) (vp : String × ScreenshotEntry) (e : PageError)
    (he : e ∈ pr.errors) : e ∈ (phaseAStep existsFn oracle url pr vp).errors := by
  rw [phaseAStep]
  split
  · exact List.mem_append_left _ he
  · split
    · exact he
    · exact List.mem_append_left _ he

/-- Folding further Phase A steps never removes a recorded error. -/
theorem foldl_phaseAStep_errors_mono {α β : Type} (existsFn : String → Bool)
    (oracle : String → String → Except String α) (url : String) :
    ∀ (vps : List (String × ScreenshotEntry)) (pr : PageResult α β) (e : PageError),
      e ∈ pr.errors → e ∈ (vps.foldl (phaseAStep existsFn oracle url) pr).errors := by
  intro vps
  induction vps with
  | nil => intro pr e he; exact he
  | cons v rest ih =>
    intro pr e he
    exact ih _ e (phaseAStep_errors_mono existsFn oracle url pr v e he)

/-- Once a viewport's analysis slot holds the oracle's success value, further
Phase A steps of the same page keep it (a step writes only its own slot, and
a duplicate name would re-write the same oracle value). -/
theorem foldl_phaseAStep_analyses_stable {α β : Type} (existsFn : String → Bool)
    (oracle : String → String → Except String α) (url : String)
    (vpName : String) (a : α) (hok : oracle url vpName = Except.ok a) :
    ∀ (vps : List (String × ScreenshotEntry)) (pr : PageResult α β),
      lookupAssoc pr.analyses vpName = some a →
      lookupAssoc ((vps.foldl (phaseAStep existsFn oracle url) pr)).analyses vpName
        = some a := by
  intro vps
  induction vps with
  | nil => intro pr hpr; exact hpr
  | cons v rest ih =>
    intro pr hpr
    refine ih _ ?_
    rw [phaseAStep]
    split
    · exact hpr
    · split
      · next b hb =>
        by_cases hv : v.1 = vpName
        · subst hv
          rw [hok] at hb
          cases hb
          simpa using lookup_setAssoc_self pr.analyses v.1 a
        · have : vpName ≠ v.1 := fun he => hv he.symm
          simpa using (lookup_setAssoc_ne pr.analyses v.1 vpName b this).trans hpr
      · exact hpr

/-- A page's URL is not changed by Phase A steps. -/
theorem foldl_phaseAStep_url {α β : Type} (existsFn : String → Bool)
    (oracle : String → String → Except String α) (url : String) :
    ∀ (vps : List (String × ScreenshotEntry)) (pr : PageResult α β),
      (vps.foldl (phaseAStep existsFn oracle url) pr).url = pr.url := by
  intro vps
  induction vps with
  | nil => intro pr; rfl
  | cons v rest ih =>
    intro pr
    rw [List.foldl_cons, ih]
    rw [phaseAStep]
    split
    · rfl
    · split <;> rfl

/-- A page's screenshots list is not changed by Phase A steps. -/
theorem foldl_phaseAStep_screenshots {α β : Type} (existsFn : String → Bool)
    (oracle : String → String → Except String α) (url : String) :
    ∀ (vps : List (String × ScreenshotEntry)) (pr : PageResult α β),
      (vps.foldl (phaseAStep existsFn oracle url) pr).screenshots = pr.screenshots := by
  intro vps
  induction vps with
  | nil => intro pr; rfl
  | cons v rest ih =>
    intro pr
    rw [List.foldl_cons, ih]
    rw [phaseAStep]
    split
    · rfl
    · split <;> rfl

/-- A missing screenshot is recorded as that page's error. -/
theorem foldl_phaseAStep_missing {α β : Type} (existsFn : String → Bool)
    (oracle : String → String → Except String α) (url vpName : String)
    (entry : ScreenshotEntry) (hex : existsFn entry.filePath = false) :
    ∀ (vps : List (String × ScreenshotEntry)) (pr : PageResult α β),
      (vpName, entry) ∈ vps →
      (⟨vpName, "Screenshot file not found: " ++ entry.filePath⟩ : PageError)
        ∈ (vps.foldl (phaseAStep existsFn oracle url) pr).errors := by
  intro vps
  induction vps with
  | nil => intro pr hmem; cases hmem
  | cons v rest ih =>
    intro pr hmem
    rcases List.mem_cons.mp hmem with hv | hrest
    · refine foldl_phaseAStep_errors_mono existsFn oracle url rest _ _ ?_
      rw [← hv, phaseAStep, if_pos hex]
      exact List.mem_append_right _ (List.mem_singleton.mpr rfl)
    · exact ih _ hrest

/-- A successful analysis for an existing screenshot lands in that page's
analyses map under its viewport name. -/
theorem foldl_phaseAStep_ok {α β : Type} (existsFn : String → Bool)
    (oracle : String → String → Except String α) (url vpName : String)
    (entry : ScreenshotEntry) (a : α) (hex : existsFn entry.filePath = true)
    (hok : oracle url vpName = Except.ok a) :
    ∀ (vps : List (String × ScreenshotEntry)) (pr : PageResult α β),
      (vpName, entry) ∈ vps →
      lookupAssoc ((vps.foldl (phaseAStep existsFn oracle url) pr)).analyses vpName
        = some a := by
  intro vps
  induction vps with
  | nil => intro pr hmem; cases hmem
  | cons v rest ih =>
    intro pr hmem
    rcases List.mem_cons.mp hmem with hv | hrest
    · refine foldl_phaseAStep_analyses_stable existsFn oracle url vpName a hok rest _ ?_
      rw [← hv, phaseAStep]
      rw [if_neg (by simp [hex])]
      rw [hok]
      exact lookup_setAssoc_self pr.analyses vpName a
    · exact ih _ hrest

/-- A failed analysis for an existing screenshot is recorded as that page's
error, with the caught message. -/
theorem foldl_phaseAStep_err {α β : Type} (existsFn : String → Bool)
    (oracle : String → String → Except String α) (url vpName : String)
    (entry : ScreenshotEntry) (m : String) (hex : existsFn entry.filePath = true)
    (herr : oracle url vpName = Except.error m) :
    ∀ (vps : List (String × ScreenshotEntry)) (pr : PageResult α β),
      (vpName, entry) ∈ vps →
      (⟨vpName, m⟩ : PageError)
        ∈ (vps.foldl (phaseAStep existsFn oracle url) pr).errors := by
  intro vps
  induction vps with
  | nil => intro pr hmem; cases hmem
  | cons v rest ih =>
    intro pr hmem
    rcases List.mem_cons.mp hmem with hv | hrest
    · refine foldl_phaseAStep_errors_mono existsFn oracle url rest _ _ ?_
      rw [← hv, phaseAStep]
      rw [if_neg (by simp [hex])]
      rw [herr]
      exact List.mem_append_right _ (List.mem_singleton.mpr rfl)
    · exact ih _ hrest

/-- C7: Phase A isolates per-task analysis failures.  For every run (any
entry map, any file-existence state, any analysis outcomes): every page gets
a result (nothing is thrown to the caller — the phase is a total function
with one result per page), a failing (page, viewport) analysis is recorded in
that page's error list, and a succeeding one is recorded in that page's
analyses map — so other pages' successes are returned regardless of this
page's failure. -/
theorem phaseA_isolates_failures {α β : Type} (existsFn : String → Bool)
    (oracle : String → String → Except String α)
    (entries : List (String × List (String × ScreenshotEntry)))
    (url : String) (vps : List (String × ScreenshotEntry))
    (hmem : (url, vps) ∈ entries)
    (vpName : String) (entry : ScreenshotEntry)
    (hvp : (vpName, entry) ∈ vps) :
    (phaseA existsFn oracle entries : List (PageResult α β)).length = entries.length
      ∧ (processPage existsFn oracle (url, vps) : PageResult α β)
          ∈ (phaseA existsFn oracle entries : List (PageResult α β))
      ∧ (processPage existsFn oracle (url, vps) : PageResult α β).url = url
      ∧ (existsFn entry.filePath = false →
          (⟨vpName, "Screenshot file not found: " ++ entry.filePath⟩ : PageError)
            ∈ (processPage existsFn oracle (url, vps) : PageResult α β).errors)
      ∧ (∀ a, existsFn entry.filePath = true → oracle url vpName = Except.ok a →
          lookupAssoc
              ((processPage existsFn oracle (url, vps) : PageResult α β)).analyses
              vpName
            = some a)
      ∧ (∀ m, existsFn entry.filePath = true → oracle url vpName = Except.error m →
          (⟨vpName, m⟩ : PageError)
            ∈ ((processPage existsFn oracle (url, vps) : PageResult α β)).errors) := by
  refine ⟨List.length_map _ _, List.mem_map_of_mem _ hmem, ?_, ?_, ?_, ?_⟩
  · rw [processPage, foldl_phaseAStep_url]
    rfl
  · intro hex
    exact foldl_phaseAStep_missing existsFn oracle url vpName entry hex vps _ hvp
  · intro a hex hok
    exact foldl_phaseAStep_ok existsFn oracle url vpName entry a hex hok vps _ hvp
  · intro m hex herr
    exact foldl_phaseAStep_err existsFn oracle url vpName entry m hex herr vps _ hvp

/-- The claim's example run: three pages, one viewport each. -/
def examplePage (u f : String) : String × List (String × ScreenshotEntry) :=
  (u, [("desktop", ⟨u, ⟨"desktop", 1440, 900⟩, f, 0, false⟩)])

/-- The claim's example oracle: page 2's analysis always fails, pages 1 and 3
succeed. -/
def exampleOracle : String → String → Except String Nat :=
  fun url _ => if url = "https://b/" then Except.error "rate limited" else Except.ok 7

/-- C7 witness: in the 3-page example, phase A returns 3 page results, pages
1 and 3 hold their successful analyses, and page 2 holds its recorded error. -/
theorem phaseA_isolates_failures_witness :
    (phaseA (fun _ => true) exampleOracle
        [examplePage "https://a/" "a.png", examplePage "https://b/" "b.png",
          examplePage "https://c/" "c.png"] : List (PageResult Nat Nat)).length = 3
      ∧ lookupAssoc
          ((processPage (fun _ => true) exampleOracle
            (examplePage "https://a/" "a.png") : PageResult Nat Nat)).analyses
          "desktop" = some 7
      ∧ (⟨"desktop", "rate limited"⟩ : PageError)
          ∈ ((processPage (fun _ => true) exampleOracle
            (examplePage "https://b/" "b.png") : PageResult Nat Nat)).errors
      ∧ lookupAssoc
          ((processPage (fun _ => true) exampleOracle
            (examplePage "https://c/" "c.png") : PageResult Nat Nat)).analyses
          "desktop" = some 7 := by
  have ha := @phaseA_isolates_failures Nat Nat (fun _ => true) exampleOracle
    [examplePage "https://a/" "a.png", examplePage "https://b/" "b.png",
      examplePage "https://c/" "c.png"]
    "https://a/" [("desktop", ⟨"https://a/", ⟨"desktop", 1440, 900⟩, "a.png", 0, false⟩)]
    (by decide) "desktop" ⟨"https://a/", ⟨"desktop", 1440, 900⟩, "a.png", 0, false⟩
    (by decide)
  have hb := @phaseA_isolates_failures Nat Nat (fun _ => true) exampleOracle
    [examplePage "https://a/" "a.png", examplePage "https://b/" "b.png",
      examplePage "https://c/" "c.png"]
    "https://b/" [("desktop", ⟨"https://b/", ⟨"desktop", 1440, 900⟩, "b.png", 0, false⟩)]
    (by decide) "desktop" ⟨"https://b/", ⟨"desktop", 1440, 900⟩, "b.png", 0, false⟩
    (by decide)
  have hc := @phaseA_isolates_failures Nat Nat (fun _ => true) exampleOracle
    [examplePage "https://a/" "a.png", examplePage "https://b/" "b.png",
      examplePage "https://c/" "c.png"]
    "https://c/" [("desktop", ⟨"https://c/", ⟨"desktop", 1440, 900⟩, "c.png", 0, false⟩)]
    (by decide) "desktop" ⟨"https://c/", ⟨"desktop", 1440, 900⟩, "c.png", 0, false⟩
    (by decide)
  refine ⟨ha.1, ?_, ?_, ?_⟩
  · exact ha.2.2.2.2.1 7 rfl rfl
  · exact hb.2.2.2.2.2 "rate limited" rfl rfl
  · exact hc.2.2.2.2.1 7 rfl rfl

/-! ### Phase B: barrier and submission condition (C8)

The source awaits `Promise.all(analysisTasks)` and only then builds
`pagesNeedingComparison = pages.filter((p) => p.screenshots.size > 1)` and its
comparison tasks.  The trace model makes the barrier explicit: Phase A tasks
settle in an arbitrary completion order (any permutation of the submitted
tasks — submission skips entries whose file is missing, line 76), and every
Phase B start event follows them. -/

/-- Observable orchestration events. -/
inductive OrchEvent where
  | aSettle (url vpName : String) : OrchEvent
  | bStart (url : String) : OrchEvent
deriving DecidableEq, Repr

/-- Is this the settling of a Phase A analysis task? -/
def OrchEvent.isASettle : OrchEvent → Bool
  | .aSettle _ _ => true
  | _ => false

/-- Is this the start of a Phase B comparison task? -/
def OrchEvent.isBStart : OrchEvent → Bool
  | .bStart _ => true
  | _ => false

/-- The `(url, viewport-name)` Phase A tasks actually submitted: the
pre-flight existence check records missing files synchronously and submits no
task for them. -/
def phaseASubmitted (existsFn : String → Bool)
    (entries : List (String × List (String × ScreenshotEntry))) :
    List (String × String) :=
  entries.flatMap (fun p =>
    (p.2.filter (fun vp => existsFn vp.2.filePath)).map (fun vp => (p.1, vp.1)))

/-- The orchestrator's event trace for one run: all Phase A settle events (in
the completion order `settleOrder`), then — after the `await Promise.all`
barrier — a Phase B start event for exactly the pages with more than one
screenshot. -/
def runTrace (β : Type) {α : Type} (existsFn : String → Bool)
    (oracleA : String → String → Except String α)
    (entries : List (String × List (String × ScreenshotEntry)))
    (settleOrder : List (String × String)) : List OrchEvent :=
  settleOrder.map (fun t => OrchEvent.aSettle t.1 t.2)
    ++ (phaseA existsFn oracleA entries : List (PageResult α β)).filterMap
        (fun pr => if 1 < pr.screenshots.length then some (OrchEvent.bStart pr.url)
          else none)

/-- In a trace made of settle events followed by start events, every settle
index precedes every start index. -/
theorem append_settle_before_start (A B : List OrchEvent)
    (hA : ∀ e ∈ A, e.isASettle = true) (hB : ∀ e ∈ B, e.isBStart = true) :
    ∀ i j (hi : i < (A ++ B).length) (hj : j < (A ++ B).length),
      ((A ++ B).get ⟨i, hi⟩).isASettle = true →
      ((A ++ B).get ⟨j, hj⟩).isBStart = true → i < j := by
  intro i j hi hj hia hjb
  have hiA : i < A.length := by
    by_contra hge
    push_neg at hge
    have h1 : ((A ++ B).get ⟨i, hi⟩) ∈ B := by
      rw [List.get_eq_getElem, List.getElem_append_right hge]
      exact List.getElem_mem _
    have h2 := hB _ h1
    cases hget : (A ++ B).get ⟨i, hi⟩ with
    | aSettle u v => rw [hget] at h2; exact absurd h2 (by simp [OrchEvent.isBStart])
    | bStart u => rw [hget] at hia; exact absurd hia (by simp [OrchEvent.isASettle])
  have hjB : A.length ≤ j := by
    by_contra hlt
    push_neg at hlt
    have h1 : ((A ++ B).get ⟨j, hj⟩) ∈ A := by
      rw [List.get_eq_getElem, List.getElem_append_left hlt]
      exact List.getElem_mem _
    have h2 := hA _ h1
    cases hget : (A ++ B).get ⟨j, hj⟩ with
    | aSettle u v => rw [hget] at hjb; exact absurd hjb (by simp [OrchEvent.isBStart])
    | bStart u => rw [hget] at h2; exact absurd h2 (by simp [OrchEvent.isASettle])
  omega

/-- C8: in every run trace (for every completion order of the submitted
Phase A tasks), every Phase B comparison start is strictly after every
Phase A settle — the barrier — and a Phase B task exists only for a page
whose screenshot map has at least 2 entries. -/
theorem phaseB_starts_after_barrier_and_needs_two_screenshots
    {α β : Type} (existsFn : String → Bool)
    (oracleA : String → String → Except String α)
    (entries : List (String × List (String × ScreenshotEntry)))
    (settleOrder : List (String × String))
    (_hperm : settleOrder.Perm (phaseASubmitted existsFn entries)) :
    (∀ i j (hi : i < (runTrace β existsFn oracleA entries settleOrder).length)
        (hj : j < (runTrace β existsFn oracleA entries settleOrder).length),
        ((runTrace β existsFn oracleA entries settleOrder).get ⟨i, hi⟩).isASettle
            = true →
        ((runTrace β existsFn oracleA entries settleOrder).get ⟨j, hj⟩).isBStart
            = true →
        i < j)
      ∧ ∀ url, OrchEvent.bStart url ∈ runTrace β existsFn oracleA entries settleOrder →
          ∃ pr ∈ (phaseA existsFn oracleA entries : List (PageResult α β)),
            pr.url = url ∧ 2 ≤ pr.screenshots.length := by
  have hA : ∀ e ∈ settleOrder.map (fun t => OrchEvent.aSettle t.1 t.2),
      e.isASettle = true := by
    intro e he
    obtain ⟨t, _, ht⟩ := List.mem_map.mp he
    rw [← ht]
    rfl
  have hB : ∀ e ∈ (phaseA existsFn oracleA entries : List (PageResult α β)).filterMap
      (fun pr => if 1 < pr.screenshots.length then some (OrchEvent.bStart pr.url)
        else none), e.isBStart = true := by
    intro e he
    obtain ⟨pr, _, hpr⟩ := List.mem_filterMap.mp he
    by_cases hc : 1 < pr.screenshots.length
    · rw [if_pos hc] at hpr
      cases hpr
      rfl
    · rw [if_neg hc] at hpr
      cases hpr
  constructor
  · exact append_settle_before_start _ _ hA hB
  · intro url hmem
    have hmem' : OrchEvent.bStart url
        ∈ settleOrder.map (fun t => OrchEvent.aSettle t.1 t.2)
          ++ (phaseA existsFn oracleA entries : List (PageResult α β)).filterMap
            (fun pr => if 1 < pr.screenshots.length
              then some (OrchEvent.bStart pr.url) else none) := hmem
    rcases List.mem_append.mp hmem' with hmA | hmB
    · obtain ⟨t, _, ht⟩ := List.mem_map.mp hmA
      cases ht
    · obtain ⟨pr, hpr, hval⟩ := List.mem_filterMap.mp hmB
      by_cases hc : 1 < pr.screenshots.length
      · rw [if_pos hc] at hval
        refine ⟨pr, hpr, ?_, by omega⟩
        cases hval
        rfl
      · rw [if_neg hc] at hval
        cases hval

/-- C8 witness: a concrete run (one page with two screenshots, one with one)
where the only Phase B start is for the two-screenshot page. -/
theorem phaseB_barrier_witness :
    ∃ pr ∈ (phaseA (fun _ => true) exampleOracle
        [("https://a/", [("mobile", ⟨"https://a/", ⟨"mobile", 375, 812⟩, "m.png", 0, false⟩),
          ("desktop", ⟨"https://a/", ⟨"desktop", 1440, 900⟩, "d.png", 0, false⟩)]),
          examplePage "https://b/" "b.png"] : List (PageResult Nat Nat)),
      pr.url = "https://a/" ∧ 2 ≤ pr.screenshots.length := by
  have h := @phaseB_starts_after_barrier_and_needs_two_screenshots Nat Nat
    (fun _ => true) exampleOracle
    [("https://a/", [("mobile", ⟨"https://a/", ⟨"mobile", 375, 812⟩, "m.png", 0, false⟩),
      ("desktop", ⟨"https://a/", ⟨"desktop", 1440, 900⟩, "d.png", 0, false⟩)]),
      examplePage "https://b/" "b.png"]
    (phaseASubmitted (fun _ => true)
      [("https://a/", [("mobile", ⟨"https://a/", ⟨"mobile", 375, 812⟩, "m.png", 0, false⟩),
        ("desktop", ⟨"https://a/", ⟨"desktop", 1440, 900⟩, "d.png", 0, false⟩)]),
        examplePage "https://b/" "b.png"])
    (List.Perm.refl _)
  exact h.2 "https://a/" (by decide)

/-! ## `parseAnalysisResponse` (`src/analyze.ts`, lines 159-213)

```ts
let jsonStr = raw.trim();
const fenceMatch = jsonStr.match(/<three backticks>(?:json)?\s*([\s\S]*?)<three backticks>/);
if (fenceMatch) jsonStr = fenceMatch[1].trim();
try {
  const parsed = JSON.parse(jsonStr);
  const result = PageAnalysisSchema.safeParse(parsed);
  if (result.success) return { ...result.data, rawResponse: raw };
  return { feedback: parsed.feedback ?? {...empty...}, issues: Array.isArray(...) ... };
} catch { return { feedback: { layoutAndHierarchy: raw, ...'' }, ..., rawResponse: raw }; }
```

`JSON.parse` and the zod schema check are external collaborators, modelled as
arbitrary functions (`none` models a `JSON.parse` throw / a failed
`safeParse`).  The fence regex is embedded operationally: the engine takes
the leftmost start position whose match succeeds; the greedy `(?:json)?` and
`\s*` prefixes and the lazy capture reduce — since none of the characters
they consume is a backtick — to "capture from after the optional `json` tag
and whitespace up to the next fence".  `parsed.feedback` on a `null` parse
result throws a `TypeError`, which the surrounding `catch` converts to the
fallback shape, and partial extraction otherwise reads properties off the
parsed value exactly as the source does. -/

/-- The character class `\s` of JS regexes / `String.prototype.trim`. -/
def jsWhitespaceChar (c : Char) : Bool :=
  c == ' ' || c == Char.ofNat 9 || c == Char.ofNat 10 || c == Char.ofNat 11
    || c == Char.ofNat 12 || c == Char.ofNat 13 || c == Char.ofNat 160
    || c == Char.ofNat 0x2028 || c == Char.ofNat 0x2029 || c == Char.ofNat 0xFEFF

/-- `String.prototype.trim`. -/
def jsTrim (s : String) : String :=
  ⟨((s.data.dropWhile jsWhitespaceChar).reverse.dropWhile jsWhitespaceChar).reverse⟩

/-- The backtick character. -/
def backtick : Char := Char.ofNat 96

/-- Do the next three characters form a code fence? -/
def startsWithFence : List Char → Bool
  | c1 :: c2 :: c3 :: _ => c1 == backtick && c2 == backtick && c3 == backtick
  | _ => false

/-- Characters strictly before the first fence occurrence (`none` if there is
no fence): the lazy capture `([\s\S]*?)` followed by the closing fence. -/
def upToFence : List Char → Option (List Char)
  | [] => none
  | c :: cs =>
    if startsWithFence (c :: cs) then some []
    else (upToFence cs).map (fun l => c :: l)

/-- The capture of a match whose opening fence has just been consumed:
greedily take the optional `json` tag, greedily take whitespace, then
capture lazily up to the closing fence. -/
def fenceCaptureAt (rest : List Char) : Option (List Char) :=
  let afterTag := match rest with
    | 'j' :: 's' :: 'o' :: 'n' :: r => r
    | r => r
  upToFence (afterTag.dropWhile jsWhitespaceChar)

/-- Leftmost match of the fence regex: try each start position from the
left; a start position matches when it begins with a fence that is closed
later. -/
def fenceSearch : List Char → Option (List Char)
  | [] => none
  | c :: cs =>
    if startsWithFence (c :: cs) then
      match fenceCaptureAt (cs.drop 2) with
      | some cap => some cap
      | none => fenceSearch cs
    else fenceSearch cs

/-- `raw.trim()`, then the fence-stripping rewrite of `jsonStr`. -/
def extractJson (raw : String) : String :=
  let jsonStr := jsTrim raw
  match fenceSearch jsonStr.data with
  | some cap => jsTrim ⟨cap⟩
  | none => jsonStr

/-- The validated payload zod's `PageAnalysisSchema.safeParse` yields on
success (`result.data`, before `rawResponse` is spliced in). -/
structure AnalysisFields where
  feedback : JsValue
  issues : JsValue
  goalAssessments : JsValue
  overallGoalAlignment : JsValue
  topRecommendations : JsValue

/-- The `PageAnalysis` value `parseAnalysisResponse` returns. -/
structure PageAnalysisM where
  feedback : JsValue
  issues : JsValue
  goalAssessments : JsValue
  overallGoalAlignment : JsValue
  topRecommendations : JsValue
  rawResponse : String

/-- JS property access on a receiver already known non-null/non-undefined. -/
def jsGetField (v : JsValue) (k : String) : JsValue :=
  match v with
  | .obj fs => (lookupAssoc fs k).getD .undefined
  | _ => .undefined

/-- The nullish-coalescing operator `a ?? d`. -/
def nullish (v d : JsValue) : JsValue :=
  match v with
  | .undefined => d
  | .null => d
  | x => x

/-- `Array.isArray`. -/
def isArray : JsValue → Bool
  | .arr _ => true
  | _ => false

/-- The default feedback object of the partial-extraction branch. -/
def emptyFeedbackObj : JsValue :=
  .obj [("layoutAndHierarchy", .str ""), ("typography", .str ""),
    ("colorAndContrast", .str ""), ("responsiveness", .str ""),
    ("visualPolish", .str "")]

/-- The fixed fallback shape of the `catch` branch (lines 198-211): the raw
response as `layoutAndHierarchy`, empty strings elsewhere, empty lists,
`null` alignment. -/
def fallbackAnalysis (raw : String) : PageAnalysisM :=
  ⟨.obj [("layoutAndHierarchy", .str raw), ("typography", .str ""),
    ("colorAndContrast", .str ""), ("responsiveness", .str ""),
    ("visualPolish", .str "")],
   .arr [], .arr [], .null, .arr [], raw⟩

/-- `parseAnalysisResponse`, parametrized by `JSON.parse` and the schema
check.  Total: every throw inside the `try` lands in the `catch`, which
returns the fallback shape. -/
def parseAnalysisResponse (jsonParse : String → Option JsValue)
    (safeParse : JsValue → Option AnalysisFields) (raw : String) : PageAnalysisM :=
  let jsonStr := extractJson raw
  match jsonParse jsonStr with
  | none => fallbackAnalysis raw
  | some parsed =>
    match safeParse parsed with
    | some d => ⟨d.feedback, d.issues, d.goalAssessments, d.overallGoalAlignment,
        d.topRecommendations, raw⟩
    | none =>
      match parsed with
      | .null => fallbackAnalysis raw
      | _ =>
        ⟨nullish (jsGetField parsed "feedback") emptyFeedbackObj,
         if isArray (jsGetField parsed "issues") then jsGetField parsed "issues"
           else .arr [],
         if isArray (jsGetField parsed "goalAssessments")
           then jsGetField parsed "goalAssessments" else .arr [],
         nullish (jsGetField parsed "overallGoalAlignment") .null,
         if isArray (jsGetField parsed "topRecommendations")
           then jsGetField parsed "topRecommendations" else .arr [],
         raw⟩

/-- C10: `parseAnalysisResponse` is total by construction (a total function
of its inputs, mirroring the source's catch-all `try`/`catch`); for every
input — and every behaviour of the external `JSON.parse` and schema check —
the returned `rawResponse` equals the input, and whenever parsing the
fence-stripped input fails, the result is exactly the fixed fallback shape
with the raw input as `feedback.layoutAndHierarchy`. -/
theorem parseAnalysisResponse_total_raw_and_fallback
    (jsonParse : String → Option JsValue)
    (safeParse : JsValue → Option AnalysisFields) (raw : String) :
    (parseAnalysisResponse jsonParse safeParse raw).rawResponse = raw
      ∧ (jsonParse (extractJson raw) = none →
          parseAnalysisResponse jsonParse safeParse raw = fallbackAnalysis raw) := by
  constructor
  · cases h : jsonParse (extractJson raw) with
    | none => simp [parseAnalysisResponse, h, fallbackAnalysis]
    | some parsed =>
      cases hs : safeParse parsed with
      | some d => simp [parseAnalysisResponse, h, hs]
      | none =>
        cases parsed <;> simp [parseAnalysisResponse, h, hs, fallbackAnalysis]
  · intro h
    simp [parseAnalysisResponse, h]

/-- C10 witness: when `JSON.parse` rejects the input, the result is the
fallback shape and carries the raw input. -/
theorem parseAnalysisResponse_total_raw_and_fallback_witness :
    parseAnalysisResponse (fun _ => none) (fun _ => none) "not json"
        = fallbackAnalysis "not json"
      ∧ (parseAnalysisResponse (fun _ => none) (fun _ => none) "not json").rawResponse
        = "not json" := by
  have h := parseAnalysisResponse_total_raw_and_fallback (fun _ => none)
    (fun _ => none) "not json"
  exact ⟨h.2 rfl, h.1⟩

end Looker
